import Mathlib

/-!
Shallow embedding of `aw-geez` (`src/src/main.rs`), a small bevy-0.5 demo:
a grid of rotating sprites, a moving camera, mouse-wheel zoom and a periodic
sprite-count log.

Modelling conventions:
* `f32` values are embedded as exact rationals (`ℚ`) wherever the code only
  does ring and order arithmetic (zoom scale, timer, window sizes), and as
  reals (`ℝ`) where trigonometry is involved (quaternion rotation geometry).
* Engine primitives the systems call (glam `Quat`/`Vec3` math, bevy `Transform`
  multiplication, the repeating `Timer`, `Windows::get_primary`) are not part
  of this repository; they are embedded here by their documented mathematical
  meaning in the engine version the code compiles against (bevy 0.5 / glam).
* The `unwrap` on the primary window is embedded by returning `Option`:
  `none` stands for the process aborting (a panic).
* `rand::thread_rng` draws are embedded as an arbitrary stream of rational
  values supplied per grid cell; no claim depends on their distribution.
-/

namespace AwGeez

/-- glam `Vec3`, over `ℝ`. -/
structure Vec3 where
  x : ℝ
  y : ℝ
  z : ℝ

/-- glam `Quat`, components `(x, y, z, w)`, over `ℝ`. -/
structure Quat where
  x : ℝ
  y : ℝ
  z : ℝ
  w : ℝ

namespace Vec3

/-- Componentwise sum, `Vec3 + Vec3`. -/
def add (a b : Vec3) : Vec3 :=
  ⟨a.x + b.x, a.y + b.y, a.z + b.z⟩

/-- Componentwise (Hadamard) product, glam `Vec3 * Vec3`. -/
def hadamard (a b : Vec3) : Vec3 :=
  ⟨a.x * b.x, a.y * b.y, a.z * b.z⟩

/-- Scalar multiple, glam `Vec3 * f32`. -/
def smul (v : Vec3) (a : ℝ) : Vec3 :=
  ⟨v.x * a, v.y * a, v.z * a⟩

/-- Dot product. -/
def dot (a b : Vec3) : ℝ :=
  a.x * b.x + a.y * b.y + a.z * b.z

/-- Cross product. -/
def cross (a b : Vec3) : Vec3 :=
  ⟨a.y * b.z - a.z * b.y, a.z * b.x - a.x * b.z, a.x * b.y - a.y * b.x⟩

/-- glam `Vec3::X`. -/
def unitX : Vec3 := ⟨1, 0, 0⟩

/-- glam `Vec3::ONE`. -/
def one : Vec3 := ⟨1, 1, 1⟩

end Vec3

namespace Quat

/-- Hamilton product, glam `Quat * Quat`. -/
def mul (p q : Quat) : Quat :=
  ⟨p.w * q.x + p.x * q.w + p.y * q.z - p.z * q.y,
   p.w * q.y - p.x * q.z + p.y * q.w + p.z * q.x,
   p.w * q.z + p.x * q.y - p.y * q.x + p.z * q.w,
   p.w * q.w - p.x * q.x - p.y * q.y - p.z * q.z⟩

/-- glam `Quat::IDENTITY`. -/
def one : Quat := ⟨0, 0, 0, 1⟩

/-- glam `Quat::from_rotation_z(angle)`: the unit quaternion
`(0, 0, sin (angle/2), cos (angle/2))`. -/
noncomputable def fromRotationZ (angle : ℝ) : Quat :=
  ⟨0, 0, Real.sin (angle / 2), Real.cos (angle / 2)⟩

/-- glam `Quat * Vec3` (rotating a vector by a unit quaternion):
`v * (w^2 - |b|^2) + b * (2 (v ⬝ b)) + (b × v) * (2 w)` with `b = (x, y, z)`. -/
def mulVec3 (q : Quat) (v : Vec3) : Vec3 :=
  let b : Vec3 := ⟨q.x, q.y, q.z⟩
  let b2 : ℝ := b.dot b
  ((v.smul (q.w * q.w - b2)).add (b.smul (v.dot b * 2))).add
    ((b.cross v).smul (q.w * 2))

end Quat

/-- bevy `Transform`: translation, rotation, (componentwise) scale. -/
structure Transform where
  translation : Vec3
  rotation : Quat
  scale : Vec3

namespace Transform

/-- bevy 0.5 `Transform::from_translation`: identity rotation and unit scale. -/
def fromTranslation (v : Vec3) : Transform :=
  { translation := v, rotation := Quat.one, scale := Vec3.one }

/-- bevy 0.5 `Transform::rotate(rotation)`: `self.rotation *= rotation`
(post-multiplication). -/
def rotate (t : Transform) (q : Quat) : Transform :=
  { t with rotation := t.rotation.mul q }

/-- bevy 0.5 `Transform::mul_vec3`: rotate, then scale componentwise, then
translate. -/
def mulVec3 (t : Transform) (v : Vec3) : Vec3 :=
  (t.scale.hadamard (t.rotation.mulVec3 v)).add t.translation

/-- bevy 0.5 `Transform * Transform` (`mul_transform`). -/
def mulTransform (t u : Transform) : Transform :=
  { translation := t.mulVec3 u.translation
    rotation := t.rotation.mul u.rotation
    scale := t.scale.hadamard u.scale }

end Transform

/-- `enum Direction` of `main.rs`. -/
inductive Direction where
  | Clockwise
  | CounterClockwise
deriving Repr, DecidableEq

/-- The factor `rotate_entity` matches on the `Direction` component:
`Clockwise => 1.0`, `CounterClockwise => -1.0` (`main.rs` lines 97-100). -/
def rotationDirection : Direction → ℝ
  | .Clockwise => 1
  | .CounterClockwise => -1

/-- `struct RotationRate(f32)`. -/
structure RotationRate where
  val : ℝ

/-- One sprite entity as the systems see it: its `Transform`, `Direction` and
`RotationRate` components (the `Sprite` component carries only the fixed tile
size and is tracked by membership in the world's sprite list). -/
structure SpriteEntity where
  transform : Transform
  direction : Direction
  rate : RotationRate

/-- The body of the `rotate_entity` loop for one matched entity
(`main.rs` lines 96-103): post-multiply the transform's rotation by
`Quat::from_rotation_z(delta_seconds * rotation_direction * rate)`. -/
noncomputable def rotateEntityStep (dt : ℝ) (e : SpriteEntity) : SpriteEntity :=
  let q := Quat.fromRotationZ (dt * rotationDirection e.direction * e.rate.val)
  { e with transform := { e.transform with rotation := e.transform.rotation.mul q } }

/-- The `rotate_entity` system (`main.rs` lines 95-104): every matched entity
gets one `rotateEntityStep`. -/
noncomputable def rotate_entity (dt : ℝ) (query : List SpriteEntity) :
    List SpriteEntity :=
  query.map (rotateEntityStep dt)

/-- `const CAMERA_SPEED: f32 = 10.0` (`main.rs` line 22). -/
def CAMERA_SPEED : ℝ := 10

/-- The camera's render `Transform` together with its `Position` component
(the separately stored logical pose), as `move_camera` queries them. -/
structure CameraPose where
  transform : Transform
  position : Transform

/-- The `move_camera` system body for the camera (`main.rs` lines 106-116):
rotate the logical pose by `Quat::from_rotation_z(delta_seconds * 0.5)`,
multiply it on the right by `Transform::from_translation(Vec3::X *
CAMERA_SPEED * delta_seconds)`, copy the resulting translation onto the render
transform and post-multiply the render rotation by
`Quat::from_rotation_z(delta_seconds / 2.0)`. -/
noncomputable def move_camera (dt : ℝ) (cam : CameraPose) : CameraPose :=
  let p1 := cam.position.rotate (Quat.fromRotationZ (dt * 0.5))
  let p2 := p1.mulTransform
    (Transform.fromTranslation ((Vec3.unitX.smul CAMERA_SPEED).smul dt))
  { transform :=
      { cam.transform with
        translation := p2.translation
        rotation := cam.transform.rotation.mul (Quat.fromRotationZ (dt / 2)) }
    position := p2 }

/-- `const SCALE_FACTOR: f32 = 0.025` (`main.rs` line 23). -/
def SCALE_FACTOR : ℚ := 0.025

/-- bevy `OrthographicProjection`, reduced to the one field the code touches. -/
structure OrthographicProjection where
  scale : ℚ
deriving Repr, DecidableEq

/-- The primary bevy `Window`, reduced to the dimensions the code reads. -/
structure Window where
  width : ℚ
  height : ℚ
deriving Repr, DecidableEq

/-- bevy `WindowId`; the code only ever uses `WindowId::primary()`. -/
inductive WindowId where
  | primary
deriving Repr, DecidableEq

/-- bevy `MouseWheel` event: horizontal and vertical scroll amounts. -/
structure MouseWheel where
  x : ℚ
  y : ℚ
deriving Repr, DecidableEq

/-- bevy `WindowResized` event as `zoom_camera` constructs it. -/
structure WindowResized where
  id : WindowId
  width : ℚ
  height : ℚ
deriving Repr, DecidableEq

/-- The inner projection loop of `zoom_camera` for one wheel event
(`main.rs` lines 125-136): set each projection's scale to
`(scale - event.y * SCALE_FACTOR).max(0.1).min(1.0)`, then unwrap the primary
window and send a `WindowResized` carrying its width and height. `none` models
the `unwrap` panicking because no primary window exists. -/
def zoomEventStep (primary : Option Window) (event : MouseWheel) :
    List OrthographicProjection →
      Option (List OrthographicProjection × List WindowResized)
  | [] => some ([], [])
  | p :: rest =>
    let scale' := min (max (p.scale - event.y * SCALE_FACTOR) 0.1) 1.0
    match primary with
    | none => none
    | some w =>
      match zoomEventStep primary event rest with
      | none => none
      | some (ps, rs) =>
        some (⟨scale'⟩ :: ps, ⟨WindowId.primary, w.width, w.height⟩ :: rs)

/-- The `zoom_camera` system (`main.rs` lines 118-138): the event loop over
this frame's `MouseWheel` events, each running the projection loop
`zoomEventStep`. Returns the final projections and the `WindowResized` events
sent, or `none` when the missing primary window made the `unwrap` panic. -/
def zoom_camera (primary : Option Window)
    (projections : List OrthographicProjection) :
    List MouseWheel → Option (List OrthographicProjection × List WindowResized)
  | [] => some (projections, [])
  | e :: rest =>
    match zoomEventStep primary e projections with
    | none => none
    | some (ps, rs) =>
      match zoom_camera primary ps rest with
      | none => none
      | some (ps', rs') => some (ps', rs ++ rs')

/-- Modelled from the engine dependency (bevy 0.5 `Timer`), restricted to the
unpaused use in this code: `tick` accumulates elapsed time, the timer has just
finished exactly when the accumulated time reaches the duration, and a
repeating timer that finished wraps its elapsed time by the duration. -/
structure Timer where
  elapsed : ℚ
  duration : ℚ
  repeating : Bool
  justFinished : Bool
deriving Repr, DecidableEq

/-- `Timer::from_seconds(duration, repeating)`. -/
def Timer.fromSeconds (duration : ℚ) (repeating : Bool) : Timer :=
  { elapsed := 0, duration := duration, repeating := repeating,
    justFinished := false }

/-- `Timer::tick(delta)` for an unpaused timer. -/
def Timer.tick (t : Timer) (dt : ℚ) : Timer :=
  let e := t.elapsed + dt
  if t.duration ≤ e then
    { t with
      elapsed := if t.repeating then e - t.duration * (⌊e / t.duration⌋ : ℤ) else e
      justFinished := true }
  else
    { t with elapsed := e, justFinished := false }

/-- `struct PrintTimer(Timer)`. -/
structure PrintTimer where
  timer : Timer
deriving Repr, DecidableEq

/-- The `tick` system (`main.rs` lines 140-148): advance every `PrintTimer` by
the frame delta and, for each that just finished, print the number of entities
matched by `Query<&Sprite>`. The printed sprite counts are returned as the
frame's log. -/
def tick (dt : ℚ) (spriteCount : ℕ) :
    List PrintTimer → List PrintTimer × List ℕ
  | [] => ([], [])
  | t :: rest =>
    let t' := t.timer.tick dt
    let (ts, logs) := tick dt spriteCount rest
    (⟨t'⟩ :: ts, (if t'.justFinished then [spriteCount] else []) ++ logs)

/-- `let tile_size = Vec2::splat(64.0)` (`main.rs` line 49). -/
def tile_size : ℚ × ℚ := (64.0, 64.0)

/-- `let map_size = Vec2::splat(320.0)` (`main.rs` line 50). -/
def map_size : ℚ × ℚ := (320.0, 320.0)

/-- Rust `as i32` on a finite `f32` value: truncation toward zero. -/
def f32ToI32 (q : ℚ) : ℤ :=
  if 0 ≤ q then ⌊q⌋ else -⌊-q⌋

/-- `let half_x = (map_size.x / 32.0) as i32` (`main.rs` line 52). -/
def half_x : ℤ := f32ToI32 (map_size.1 / 32.0)

/-- `let half_y = (map_size.y / 32.0) as i32` (`main.rs` line 53). -/
def half_y : ℤ := f32ToI32 (map_size.2 / 32.0)

/-- The Rust range `-half..half` as the list of its values. -/
def coordRange (half : ℤ) : List ℤ :=
  (List.range (2 * half).toNat).map (fun i => -half + i)

/-- The grid cells `setup` iterates over: `for y in -half_y..half_y { for x in
-half_x..half_x { ... } }` (`main.rs` lines 66-67), as `(x, y)` pairs in spawn
order. -/
def gridCells : List (ℤ × ℤ) :=
  (coordRange half_y).flatMap
    (fun y => (coordRange half_x).map (fun x => (x, y)))

/-- The five `thread_rng` draws `setup` makes for one grid cell, as exact
values: the translation z offset, the rotation angle, the scale draw, the
direction draw and the rate draw (`main.rs` lines 69-90). -/
structure RandDraws where
  zOffset : ℚ
  angle : ℚ
  scaleDraw : ℚ
  dirDraw : ℚ
  rateDraw : ℚ

/-- One sprite entity as `setup` spawns it for a grid cell (`main.rs` lines
68-90): translation `(x, y) * tile_size` extended with a random z, rotation
`Quat::from_rotation_z(random)`, scale `splat(random * 2.0)`,
`CounterClockwise` iff the direction draw exceeds `0.5`, and rate
`random * 5.0`. -/
noncomputable def spawnSprite (cell : ℤ × ℤ) (r : RandDraws) : SpriteEntity :=
  { transform :=
      { translation :=
          ⟨(cell.1 : ℝ) * ((tile_size.1 : ℚ) : ℝ),
           (cell.2 : ℝ) * ((tile_size.2 : ℚ) : ℝ),
           ((r.zOffset : ℚ) : ℝ)⟩
        rotation := Quat.fromRotationZ ((r.angle : ℚ) : ℝ)
        scale :=
          ⟨((r.scaleDraw : ℚ) : ℝ) * 2, ((r.scaleDraw : ℚ) : ℝ) * 2,
           ((r.scaleDraw : ℚ) : ℝ) * 2⟩ }
    direction := if r.dirDraw > 0.5 then .CounterClockwise else .Clockwise
    rate := ⟨((r.rateDraw : ℚ) : ℝ) * 5⟩ }

/-- The single camera entity `setup` spawns (`main.rs` lines 58-64): the
bundle's render transform and projection, a one-second repeating `PrintTimer`
and a `Position` at `(0, 0, 1000)`. -/
structure CameraEntity where
  transform : Transform
  position : Transform
  projection : OrthographicProjection
  timer : PrintTimer

/-- Modelled from the engine dependency: `OrthographicCameraBundle::new_2d()`
places the camera transform at `(0, 0, far - 0.1)` with `far = 1000.0` and a
default projection scale of `1.0`. -/
noncomputable def newCamera2dTransform : Transform :=
  Transform.fromTranslation ⟨0, 0, 999.9⟩

/-- The world the startup system leaves behind: the camera entity and the
sprite entities. Only sprite entities carry a `Sprite` component, so
`Query<&Sprite>` in `tick` matches exactly `sprites`. -/
structure World where
  camera : CameraEntity
  sprites : List SpriteEntity

/-- The startup system `setup` (`main.rs` lines 42-93), parametrised by the
random draws used for each grid cell. -/
noncomputable def setup (rand : ℤ × ℤ → RandDraws) : World :=
  { camera :=
      { transform := newCamera2dTransform
        position := Transform.fromTranslation ⟨0, 0, 1000⟩
        projection := ⟨1⟩
        timer := ⟨Timer.fromSeconds 1 true⟩ }
    sprites := gridCells.map (fun cell => spawnSprite cell (rand cell)) }

/-- One frame of the schedule (`main.rs` lines 34-38): `tick`, then the
`Game`-labelled `rotate_entity`, then `move_camera` and `zoom_camera` (both
ordered after `Game`; they touch disjoint components, so they are run here in
registration order). `dt` is the frame delta, `primary` the primary window and
`events` this frame's `MouseWheel` events. Returns the new world, the sprite
counts printed by `tick` and the `WindowResized` events sent by `zoom_camera`,
or `none` when `zoom_camera` panicked. -/
noncomputable def frame (dt : ℚ) (primary : Option Window)
    (events : List MouseWheel) (w : World) :
    Option (World × List ℕ × List WindowResized) :=
  let tres := tick dt w.sprites.length [w.camera.timer]
  let sprites' := rotate_entity ((dt : ℚ) : ℝ) w.sprites
  let cam' := move_camera ((dt : ℚ) : ℝ)
    { transform := w.camera.transform, position := w.camera.position }
  match zoom_camera primary [w.camera.projection] events with
  | none => none
  | some (ps, rs) =>
    some
      ({ camera :=
           { transform := cam'.transform
             position := cam'.position
             projection := ps.headD w.camera.projection
             timer := tres.1.headD w.camera.timer }
         sprites := sprites' }, tres.2, rs)

/-- The mathematical clamp of `x` into `[lo, hi]`, following the spec's
wording for the zoom behaviour ("clamped to [0.1, 1.0]"). -/
def clamp (x lo hi : ℚ) : ℚ := max lo (min x hi)

/-!
## Helper lemmas
-/

theorem Vec3.eq_iff_xyz {a b : Vec3} :
    a = b ↔ a.x = b.x ∧ a.y = b.y ∧ a.z = b.z := by
  cases a
  cases b
  simp

theorem Quat.eq_iff_xyzw {p q : Quat} :
    p = q ↔ p.x = q.x ∧ p.y = q.y ∧ p.z = q.z ∧ p.w = q.w := by
  cases p
  cases q
  simp

theorem Transform.eq_iff_fields {t u : Transform} :
    t = u ↔ t.translation = u.translation ∧ t.rotation = u.rotation ∧
      t.scale = u.scale := by
  cases t
  cases u
  simp

/-- Multiplying two z-axis rotation quaternions adds the angles. -/
theorem Quat.fromRotationZ_mul (a b : ℝ) :
    (fromRotationZ a).mul (fromRotationZ b) = fromRotationZ (a + b) := by
  have hs : Real.sin ((a + b) / 2) =
      Real.sin (a / 2) * Real.cos (b / 2) + Real.cos (a / 2) * Real.sin (b / 2) := by
    rw [show (a + b) / 2 = a / 2 + b / 2 by ring, Real.sin_add]
  have hc : Real.cos ((a + b) / 2) =
      Real.cos (a / 2) * Real.cos (b / 2) - Real.sin (a / 2) * Real.sin (b / 2) := by
    rw [show (a + b) / 2 = a / 2 + b / 2 by ring, Real.cos_add]
  simp only [fromRotationZ, mul, eq_iff_xyzw]
  refine ⟨by ring, by ring, ?_, ?_⟩
  · rw [hs]; ring
  · rw [hc]; ring

/-- The identity quaternion is a right unit for the Hamilton product. -/
theorem Quat.mul_one (q : Quat) : q.mul one = q := by
  simp only [mul, one, eq_iff_xyzw]
  refine ⟨by ring, by ring, by ring, by ring⟩

/-- The zero-angle z rotation is the identity quaternion. -/
theorem Quat.fromRotationZ_zero : fromRotationZ 0 = one := by
  simp [fromRotationZ, one]

/-- A z-axis rotation quaternion rotates a vector by the angle in the
xy-plane and leaves the z component unchanged. -/
theorem Quat.mulVec3_fromRotationZ (φ a b c : ℝ) :
    (fromRotationZ φ).mulVec3 ⟨a, b, c⟩ =
      ⟨a * Real.cos φ - b * Real.sin φ, a * Real.sin φ + b * Real.cos φ, c⟩ := by
  have hc : Real.cos φ =
      Real.cos (φ / 2) * Real.cos (φ / 2) - Real.sin (φ / 2) * Real.sin (φ / 2) := by
    rw [← Real.cos_add, add_halves]
  have hs : Real.sin φ =
      Real.sin (φ / 2) * Real.cos (φ / 2) + Real.cos (φ / 2) * Real.sin (φ / 2) := by
    rw [← Real.sin_add, add_halves]
  have hpy : Real.sin (φ / 2) ^ 2 + Real.cos (φ / 2) ^ 2 = 1 :=
    Real.sin_sq_add_cos_sq _
  simp only [mulVec3, fromRotationZ, Vec3.dot, Vec3.cross, Vec3.smul, Vec3.add,
    Vec3.eq_iff_xyz]
  refine ⟨?_, ?_, ?_⟩
  · rw [hc, hs]; ring
  · rw [hc, hs]; ring
  · linear_combination c * hpy

theorem Vec3.one_hadamard (v : Vec3) : Vec3.one.hadamard v = v := by
  simp [hadamard, one, eq_iff_xyz]

theorem Vec3.hadamard_one (v : Vec3) : v.hadamard Vec3.one = v := by
  simp [hadamard, one, eq_iff_xyz]

/-- With a primary window present, one wheel event maps every projection to
its clamped new scale and sends one `WindowResized` per projection. -/
theorem zoomEventStep_some (w : Window) (e : MouseWheel)
    (ps : List OrthographicProjection) :
    zoomEventStep (some w) e ps =
      some (ps.map (fun p =>
              ⟨min (max (p.scale - e.y * SCALE_FACTOR) 0.1) 1.0⟩),
            ps.map (fun _ => ⟨WindowId.primary, w.width, w.height⟩)) := by
  induction ps with
  | nil => simp [zoomEventStep]
  | cons p rest ih => simp [zoomEventStep, ih]

/-- Every projection scale produced by a wheel-event step lies in
`[0.1, 1.0]`, whatever it was before. -/
theorem zoomEventStep_scale_mem (primary : Option Window) (e : MouseWheel)
    (ps : List OrthographicProjection)
    (out : List OrthographicProjection × List WindowResized)
    (h : zoomEventStep primary e ps = some out) :
    ∀ p ∈ out.1, (0.1 : ℚ) ≤ p.scale ∧ p.scale ≤ 1.0 := by
  cases primary with
  | some w =>
    rw [zoomEventStep_some] at h
    simp only [Option.some.injEq] at h
    subst h
    intro p hp
    simp only [List.mem_map] at hp
    obtain ⟨q, _, rfl⟩ := hp
    exact ⟨le_min (le_max_right _ _) (by norm_num), min_le_right _ _⟩
  | none =>
    cases ps with
    | nil =>
      simp only [zoomEventStep, Option.some.injEq] at h
      subst h
      simp
    | cons p rest => simp [zoomEventStep] at h

/-- With a primary window present, `zoom_camera` never fails, keeps the number
of projections, and sends per wheel event one `WindowResized` per projection,
each carrying the primary window's dimensions. -/
theorem zoom_camera_char (w : Window) (events : List MouseWheel) :
    ∀ ps : List OrthographicProjection,
      ∃ ps' rs, zoom_camera (some w) ps events = some (ps', rs) ∧
        ps'.length = ps.length ∧ rs.length = events.length * ps.length ∧
        ∀ r ∈ rs, r = ⟨WindowId.primary, w.width, w.height⟩ := by
  induction events with
  | nil =>
    intro ps
    exact ⟨ps, [], rfl, rfl, by simp, by simp⟩
  | cons e rest ih =>
    intro ps
    obtain ⟨ps', rs', hrun, hlen, hcount, hall⟩ :=
      ih (ps.map (fun p => ⟨min (max (p.scale - e.y * SCALE_FACTOR) 0.1) 1.0⟩))
    refine ⟨ps', ps.map (fun _ => ⟨WindowId.primary, w.width, w.height⟩) ++ rs',
      ?_, ?_, ?_, ?_⟩
    · simp only [zoom_camera, zoomEventStep_some w e ps]
      rw [hrun]
    · simpa using hlen
    · simp only [List.length_append, List.length_map, hcount,
        List.length_map, List.length_cons]
      ring
    · intro r hr
      rcases List.mem_append.mp hr with hr | hr
      · rcases List.mem_map.mp hr with ⟨p, _, hp⟩
        exact hp.symm
      · exact hall r hr

/-- Every sprite count the `tick` system prints is the count it was given. -/
theorem tick_logs_mem (dt : ℚ) (c : ℕ) :
    ∀ ts : List PrintTimer, ∀ n ∈ (tick dt c ts).2, n = c := by
  intro ts
  induction ts with
  | nil => simp [tick]
  | cons t rest ih =>
    simp only [tick]
    intro n hn
    rcases List.mem_append.mp hn with hn | hn
    · rcases (by split at hn <;> simp_all : n = c ∨ False) with h | h
      · exact h
      · exact h.elim
    · exact ih n hn

theorem half_x_eq : half_x = 10 := by
  norm_num [half_x, f32ToI32, map_size]

theorem half_y_eq : half_y = 10 := by
  norm_num [half_y, f32ToI32, map_size]

set_option maxRecDepth 8000 in
/-- The startup loops visit 20 × 20 grid cells. -/
theorem gridCells_length : gridCells.length = 400 := by
  simp only [gridCells, coordRange, half_x_eq, half_y_eq]
  decide

/-- The min-then-max order the code uses agrees with the mathematical clamp
whenever the bounds are ordered. -/
theorem min_max_eq_clamp (x lo hi : ℚ) (h : lo ≤ hi) :
    min (max x lo) hi = clamp x lo hi := by
  unfold clamp
  rcases le_total x lo with hx | hx
  · rw [max_eq_right hx, min_eq_left h, min_eq_left (hx.trans h), max_eq_left hx]
  · rw [max_eq_left hx]
    rcases le_total x hi with hh | hh
    · rw [min_eq_left hh]
      exact (max_eq_right hx).symm
    · rw [min_eq_right hh]
      exact (max_eq_right h).symm

/-!
## The claims
-/

/-- C2: for every initial projection scale in `[0.1, 1.0]` and every finite
sequence of mouse-wheel events with arbitrary scroll values, the projection
scales after `zoom_camera` processes the whole sequence remain within
`[0.1, 1.0]`. -/
theorem zoom_scale_stays_in_range (primary : Option Window)
    (projections : List OrthographicProjection) (events : List MouseWheel)
    (out : List OrthographicProjection × List WindowResized)
    (hinit : ∀ p ∈ projections, (0.1 : ℚ) ≤ p.scale ∧ p.scale ≤ 1.0)
    (hrun : zoom_camera primary projections events = some out) :
    ∀ p ∈ out.1, (0.1 : ℚ) ≤ p.scale ∧ p.scale ≤ 1.0 := by
  induction events generalizing projections out with
  | nil =>
    simp only [zoom_camera, Option.some.injEq] at hrun
    subst hrun
    exact hinit
  | cons e rest ih =>
    simp only [zoom_camera] at hrun
    split at hrun
    · exact absurd hrun (by simp)
    · rename_i ps1 rs1 hs
      split at hrun
      · exact absurd hrun (by simp)
      · rename_i ps2 rs2 hz
        simp only [Option.some.injEq] at hrun
        subst hrun
        intro p hp
        exact ih ps1 (ps2, rs2)
          (zoomEventStep_scale_mem primary e projections (ps1, rs1) hs) hz p hp

/-- Witness for C2 at one projection of scale 1/2 and one downward scroll. -/
theorem zoom_scale_stays_in_range_witness :
    (∀ p ∈ [OrthographicProjection.mk (1/2)],
        (0.1 : ℚ) ≤ p.scale ∧ p.scale ≤ 1.0) ∧
    ∀ p ∈ (([OrthographicProjection.mk (17/40)],
          [WindowResized.mk WindowId.primary 800 600]) :
        List OrthographicProjection × List WindowResized).1,
      (0.1 : ℚ) ≤ p.scale ∧ p.scale ≤ 1.0 := by
  have hscales : ∀ p ∈ [OrthographicProjection.mk (1/2)],
      (0.1 : ℚ) ≤ p.scale ∧ p.scale ≤ 1.0 := by
    intro p hp
    rw [List.mem_singleton] at hp
    subst hp
    norm_num
  have hrun : zoom_camera (some ⟨800, 600⟩) [⟨1/2⟩] [⟨0, 3⟩] =
      some ([⟨17/40⟩], [⟨WindowId.primary, 800, 600⟩]) := by
    simp only [zoom_camera, zoomEventStep_some, List.map_cons, List.map_nil]
    norm_num [min_def, max_def, SCALE_FACTOR]
  exact ⟨hscales, zoom_scale_stays_in_range (some ⟨800, 600⟩) [⟨1/2⟩] [⟨0, 3⟩]
    ([⟨17/40⟩], [⟨WindowId.primary, 800, 600⟩]) hscales hrun⟩

/-- C4: for each single wheel-scroll event with vertical scroll `e.y`,
`zoom_camera` sets each projection's scale to
`clamp (scale_before - e.y * 0.025) 0.1 1.0`, adjusting the scale by
`-e.y * 0.025` and then clamping the result into `[0.1, 1.0]` (and sends the
window-resized notifications as a side effect). -/
theorem zoom_event_sets_clamped_scale (w : Window)
    (projections : List OrthographicProjection) (e : MouseWheel) :
    zoom_camera (some w) projections [e] =
      some (projections.map (fun p => ⟨clamp (p.scale - e.y * 0.025) 0.1 1.0⟩),
            projections.map (fun _ => ⟨WindowId.primary, w.width, w.height⟩)) := by
  have hmap : (fun p : OrthographicProjection =>
        OrthographicProjection.mk
          (min (max (p.scale - e.y * SCALE_FACTOR) 0.1) 1.0)) =
      (fun p => ⟨clamp (p.scale - e.y * 0.025) 0.1 1.0⟩) := by
    funext p
    rw [min_max_eq_clamp _ _ _ (by norm_num)]
    rfl
  simp only [zoom_camera, zoomEventStep_some, hmap, List.append_nil]

/-- C6: with the app's single camera projection, each wheel-scroll event
processed by `zoom_camera` sends exactly one `WindowResized` event, carrying
the primary window's current width and height. -/
theorem zoom_sends_window_resized_per_event (w : Window)
    (p : OrthographicProjection) (events : List MouseWheel)
    (out : List OrthographicProjection × List WindowResized)
    (hrun : zoom_camera (some w) [p] events = some out) :
    out.2.length = events.length ∧
    ∀ r ∈ out.2, r = ⟨WindowId.primary, w.width, w.height⟩ := by
  obtain ⟨ps', rs, heq, -, hcount, hall⟩ := zoom_camera_char w events [p]
  rw [heq] at hrun
  simp only [Option.some.injEq] at hrun
  subst hrun
  refine ⟨?_, hall⟩
  simpa using hcount

/-- Witness for C6 at two scroll events against one projection. -/
theorem zoom_sends_window_resized_per_event_witness :
    (([OrthographicProjection.mk 1,
       OrthographicProjection.mk 1].take 1,
      [WindowResized.mk WindowId.primary 800 600,
       WindowResized.mk WindowId.primary 800 600]) :
        List OrthographicProjection × List WindowResized).2.length =
      ([MouseWheel.mk 0 3, MouseWheel.mk 0 (-100)] : List MouseWheel).length ∧
    ∀ r ∈ (([OrthographicProjection.mk 1,
         OrthographicProjection.mk 1].take 1,
        [WindowResized.mk WindowId.primary 800 600,
         WindowResized.mk WindowId.primary 800 600]) :
          List OrthographicProjection × List WindowResized).2,
      r = ⟨WindowId.primary, 800, 600⟩ := by
  have hrun : zoom_camera (some ⟨800, 600⟩) [⟨1/2⟩] [⟨0, 3⟩, ⟨0, -100⟩] =
      some ([OrthographicProjection.mk 1, OrthographicProjection.mk 1].take 1,
        [⟨WindowId.primary, 800, 600⟩, ⟨WindowId.primary, 800, 600⟩]) := by
    simp only [zoom_camera, zoomEventStep_some, List.map_cons, List.map_nil]
    norm_num [min_def, max_def, SCALE_FACTOR]
  exact zoom_sends_window_resized_per_event ⟨800, 600⟩ ⟨1/2⟩
    [⟨0, 3⟩, ⟨0, -100⟩] _ hrun

/-- C8: with a primary window present, one whole frame — `tick`,
`rotate_entity`, `move_camera` and `zoom_camera` in schedule order — is a
total function (`frame` always returns `some`, with no recoverable-error
handling anywhere); with the primary window missing while `zoom_camera`
processes a wheel event against at least one projection, the `unwrap` panics
and the process aborts (`none`). -/
theorem systems_total_unless_window_missing :
    (∀ (dt : ℚ) (w : Window) (events : List MouseWheel) (world : World),
      ∃ out, frame dt (some w) events world = some out) ∧
    (∀ (ps : List OrthographicProjection) (events : List MouseWheel),
      ps ≠ [] → events ≠ [] → zoom_camera none ps events = none) := by
  constructor
  · intro dt w events world
    obtain ⟨ps', rs, heq, -, -, -⟩ :=
      zoom_camera_char w events [world.camera.projection]
    have hsome : (frame dt (some w) events world).isSome := by
      simp only [frame]
      rw [heq]
      rfl
    exact Option.isSome_iff_exists.mp hsome
  · intro ps events hps hevents
    match ps, events with
    | p :: ps, e :: events => simp [zoom_camera, zoomEventStep]

/-- C9: `rotate_entity` sends each matched sprite through `rotateEntityStep`,
which mutates only the transform's rotation: the transform's translation and
scale and the `Direction` and `RotationRate` components are unchanged. -/
theorem rotate_entity_touches_only_rotation (dt : ℝ)
    (query : List SpriteEntity) (e : SpriteEntity) :
    rotate_entity dt query = query.map (rotateEntityStep dt) ∧
    (rotateEntityStep dt e).transform.translation = e.transform.translation ∧
    (rotateEntityStep dt e).transform.scale = e.transform.scale ∧
    (rotateEntityStep dt e).direction = e.direction ∧
    (rotateEntityStep dt e).rate = e.rate :=
  ⟨rfl, rfl, rfl, rfl, rfl⟩

/-- C10: the `Direction` sign convention of `rotate_entity`: `Clockwise` maps
to `+1.0` and `CounterClockwise` to `-1.0`, so for positive rate and positive
elapsed time a `Clockwise` sprite receives a positive (mathematically
counter-clockwise) z-angle increment and a `CounterClockwise` sprite a
negative one. -/
theorem direction_sign_convention (dt rate : ℝ) (hdt : 0 < dt)
    (hrate : 0 < rate) :
    rotationDirection Direction.Clockwise = 1 ∧
    rotationDirection Direction.CounterClockwise = -1 ∧
    0 < dt * rotationDirection Direction.Clockwise * rate ∧
    dt * rotationDirection Direction.CounterClockwise * rate < 0 := by
  refine ⟨rfl, rfl, ?_, ?_⟩
  · simp only [rotationDirection, mul_one]
    exact mul_pos hdt hrate
  · simp only [rotationDirection]
    nlinarith [mul_pos hdt hrate]

/-- Witness for C10 at `dt = 1`, `rate = 2`. -/
theorem direction_sign_convention_witness :
    ((0 : ℝ) < 1 ∧ (0 : ℝ) < 2) ∧
    (rotationDirection Direction.Clockwise = 1 ∧
     rotationDirection Direction.CounterClockwise = -1 ∧
     0 < (1 : ℝ) * rotationDirection Direction.Clockwise * 2 ∧
     (1 : ℝ) * rotationDirection Direction.CounterClockwise * 2 < 0) :=
  ⟨⟨one_pos, two_pos⟩, direction_sign_convention 1 2 one_pos two_pos⟩


/-- C3: for a sprite whose rotation is the z rotation by `angle_before` and
any elapsed time `dt ≥ 0`, one `rotate_entity` update leaves the z rotation by
exactly `angle_before + sign(direction) * rate * dt` (so in particular the
angles agree modulo full turns), because quaternion multiplication by
`Quat::from_rotation_z` composes z-axis rotations additively. -/
theorem rotate_entity_angle_additive (dt θ : ℝ) (e : SpriteEntity)
    (hdt : 0 ≤ dt) (hrot : e.transform.rotation = Quat.fromRotationZ θ) :
    (∀ a b : ℝ, (Quat.fromRotationZ a).mul (Quat.fromRotationZ b) =
        Quat.fromRotationZ (a + b)) ∧
    (rotateEntityStep dt e).transform.rotation =
      Quat.fromRotationZ
        (θ + rotationDirection e.direction * e.rate.val * dt) := by
  refine ⟨Quat.fromRotationZ_mul, ?_⟩
  show e.transform.rotation.mul
      (Quat.fromRotationZ (dt * rotationDirection e.direction * e.rate.val)) = _
  rw [hrot, Quat.fromRotationZ_mul,
    show θ + dt * rotationDirection e.direction * e.rate.val =
      θ + rotationDirection e.direction * e.rate.val * dt by ring]

/-- Witness for C3: a clockwise sprite at angle 0 with rate 2, `dt = 1`. -/
theorem rotate_entity_angle_additive_witness :
    ((0 : ℝ) ≤ 1 ∧
      (SpriteEntity.mk ⟨⟨0, 0, 0⟩, Quat.fromRotationZ 0, ⟨1, 1, 1⟩⟩
          Direction.Clockwise ⟨2⟩).transform.rotation = Quat.fromRotationZ 0) ∧
    ((∀ a b : ℝ, (Quat.fromRotationZ a).mul (Quat.fromRotationZ b) =
        Quat.fromRotationZ (a + b)) ∧
     (rotateEntityStep 1
        (SpriteEntity.mk ⟨⟨0, 0, 0⟩, Quat.fromRotationZ 0, ⟨1, 1, 1⟩⟩
          Direction.Clockwise ⟨2⟩)).transform.rotation =
       Quat.fromRotationZ (0 + rotationDirection Direction.Clockwise * 2 * 1)) :=
  ⟨⟨zero_le_one, rfl⟩,
    rotate_entity_angle_additive 1 0
      (SpriteEntity.mk ⟨⟨0, 0, 0⟩, Quat.fromRotationZ 0, ⟨1, 1, 1⟩⟩
        Direction.Clockwise ⟨2⟩) zero_le_one rfl⟩

/-- C7: the `tick` system logs the sprite count exactly when the repeating
one-second timer elapses (just finished) during that frame's tick: the
advanced timer has just finished iff the accumulated time reached one second,
the frame's log then is exactly one line carrying the sprite count, and on
frames where the timer does not elapse the log is empty. -/
theorem tick_logs_exactly_on_timer_fire (dt : ℚ) (c : ℕ) (t : PrintTimer)
    (hdur : t.timer.duration = 1) :
    ((t.timer.tick dt).justFinished = true ↔ 1 ≤ t.timer.elapsed + dt) ∧
    (tick dt c [t]).1 = [⟨t.timer.tick dt⟩] ∧
    ((t.timer.tick dt).justFinished = true → (tick dt c [t]).2 = [c]) ∧
    ((t.timer.tick dt).justFinished = false → (tick dt c [t]).2 = []) := by
  have hjf : (t.timer.tick dt).justFinished = true ↔
      1 ≤ t.timer.elapsed + dt := by
    by_cases h : (1 : ℚ) ≤ t.timer.elapsed + dt
    · simp [Timer.tick, hdur, h]
    · simp [Timer.tick, hdur, h]
  refine ⟨hjf, by simp [tick], ?_, ?_⟩
  · intro h
    simp [tick, h]
  · intro h
    simp [tick, h]

/-- Witness for C7: the app's fresh one-second repeating timer fired by a
two-second frame, with 7 sprites. -/
theorem tick_logs_exactly_on_timer_fire_witness :
    (PrintTimer.mk (Timer.fromSeconds 1 true)).timer.duration = 1 ∧
    ((((PrintTimer.mk (Timer.fromSeconds 1 true)).timer.tick 2).justFinished =
          true ↔
        1 ≤ (PrintTimer.mk (Timer.fromSeconds 1 true)).timer.elapsed + 2) ∧
     (tick 2 7 [PrintTimer.mk (Timer.fromSeconds 1 true)]).1 =
       [⟨(PrintTimer.mk (Timer.fromSeconds 1 true)).timer.tick 2⟩] ∧
     (((PrintTimer.mk (Timer.fromSeconds 1 true)).timer.tick 2).justFinished =
          true →
        (tick 2 7 [PrintTimer.mk (Timer.fromSeconds 1 true)]).2 = [7]) ∧
     (((PrintTimer.mk (Timer.fromSeconds 1 true)).timer.tick 2).justFinished =
          false →
        (tick 2 7 [PrintTimer.mk (Timer.fromSeconds 1 true)]).2 = [])) :=
  ⟨rfl, tick_logs_exactly_on_timer_fire 2 7 ⟨Timer.fromSeconds 1 true⟩ rfl⟩

set_option maxRecDepth 8000 in
/-- C1 as stated is false at the code: `setup` spawns `(2 * (320/32))^2 = 400`
sprite entities (the loops run from `-half` to `half`), not
`(map_size/32)^2 = (320/32)^2 = 100`. -/
theorem sprite_count_spec_formula_fails :
    (setup (fun _ => ⟨0, 0, 0, 0, 0⟩)).sprites.length = 400 ∧
    ((320 : ℚ) / 32) ^ 2 = (100 : ℚ) ∧ (400 : ℕ) ≠ 100 := by
  refine ⟨?_, by norm_num, by norm_num⟩
  simp only [setup, List.length_map]
  exact gridCells_length

/-- C1 (amended): the sprite count logged by the `tick` system equals the
number of sprite entities spawned at startup, and that number is fixed at
`(2 * (map_size/32))^2 = 400` for the configured `map_size` of 320, for the
entire run: no frame adds or removes sprites, and every count a frame logs is
the world's sprite count. -/
theorem sprite_count_logged_eq_spawned (rand : ℤ × ℤ → RandDraws) (dt : ℚ)
    (primary : Option Window) (events : List MouseWheel) (w : World) :
    (setup rand).sprites.length = (2 * (320 / 32)) ^ 2 ∧
    ∀ w' logs rs, frame dt primary events w = some (w', logs, rs) →
      w'.sprites.length = w.sprites.length ∧
      ∀ n ∈ logs, n = w.sprites.length := by
  constructor
  · simp only [setup, List.length_map]
    rw [gridCells_length]
    norm_num
  · intro w' logs rs h
    simp only [frame] at h
    split at h
    · exact absurd h (by simp)
    · rename_i ps rs' hz
      simp only [Option.some.injEq, Prod.mk.injEq] at h
      obtain ⟨hw', hlogs, -⟩ := h
      subst hw'
      subst hlogs
      refine ⟨?_, ?_⟩
      · simp [rotate_entity]
      · exact tick_logs_mem dt w.sprites.length [w.camera.timer]

/-- C5: one `move_camera` step with elapsed time `dt` first rotates the stored
logical camera pose about the z axis by `0.5 * dt`, then translates it forward
along its local X axis by `CAMERA_SPEED * dt = 10 * dt` (for the camera's
unit-scale pose the translation grows by `10 * dt` times the rotated local X
direction), then copies the resulting translation onto the render transform,
and independently post-multiplies the render rotation by a z rotation of
`dt / 2`; the logical pose's scale and the render scale are untouched. -/
theorem move_camera_integrates_pose (dt θ : ℝ) (cam : CameraPose)
    (hrot : cam.position.rotation = Quat.fromRotationZ θ)
    (hscale : cam.position.scale = Vec3.one) :
    (move_camera dt cam).position.rotation =
      Quat.fromRotationZ (θ + 0.5 * dt) ∧
    (move_camera dt cam).position.translation =
      cam.position.translation.add
        ⟨CAMERA_SPEED * dt * Real.cos (θ + 0.5 * dt),
         CAMERA_SPEED * dt * Real.sin (θ + 0.5 * dt), 0⟩ ∧
    (move_camera dt cam).position.scale = Vec3.one ∧
    (move_camera dt cam).transform.translation =
      (move_camera dt cam).position.translation ∧
    (move_camera dt cam).transform.rotation =
      cam.transform.rotation.mul (Quat.fromRotationZ (dt / 2)) ∧
    (move_camera dt cam).transform.scale = cam.transform.scale := by
  have harg : dt * 0.5 = 0.5 * dt := by ring
  have hp2rot : (move_camera dt cam).position.rotation =
      Quat.fromRotationZ (θ + 0.5 * dt) := by
    show ((cam.position.rotate (Quat.fromRotationZ (dt * 0.5))).mulTransform
      (Transform.fromTranslation
        ((Vec3.unitX.smul CAMERA_SPEED).smul dt))).rotation = _
    simp only [Transform.mulTransform, Transform.fromTranslation,
      Transform.rotate]
    rw [Quat.mul_one, hrot, Quat.fromRotationZ_mul, harg]
  have hp2trans : (move_camera dt cam).position.translation =
      cam.position.translation.add
        ⟨CAMERA_SPEED * dt * Real.cos (θ + 0.5 * dt),
         CAMERA_SPEED * dt * Real.sin (θ + 0.5 * dt), 0⟩ := by
    show ((cam.position.rotate (Quat.fromRotationZ (dt * 0.5))).mulTransform
      (Transform.fromTranslation
        ((Vec3.unitX.smul CAMERA_SPEED).smul dt))).translation = _
    simp only [Transform.mulTransform, Transform.fromTranslation,
      Transform.mulVec3, Transform.rotate, Vec3.unitX, Vec3.smul]
    rw [hrot, hscale, Quat.fromRotationZ_mul, harg, Quat.mulVec3_fromRotationZ,
      Vec3.one_hadamard]
    rw [Vec3.eq_iff_xyz]
    refine ⟨?_, ?_, ?_⟩ <;> simp only [Vec3.add] <;> ring
  have hp2scale : (move_camera dt cam).position.scale = Vec3.one := by
    show ((cam.position.rotate (Quat.fromRotationZ (dt * 0.5))).mulTransform
      (Transform.fromTranslation
        ((Vec3.unitX.smul CAMERA_SPEED).smul dt))).scale = _
    simp only [Transform.mulTransform, Transform.fromTranslation,
      Transform.rotate]
    rw [hscale, Vec3.hadamard_one]
  exact ⟨hp2rot, hp2trans, hp2scale, rfl, rfl, rfl⟩


/-- Witness for C5: the app's starting camera pose (identity rotation at
`(0, 0, 1000)`, unit scale) moved by a two-second frame. -/
theorem move_camera_integrates_pose_witness :
    ((CameraPose.mk (Transform.fromTranslation ⟨0, 0, 0⟩)
        (Transform.fromTranslation ⟨0, 0, 1000⟩)).position.rotation =
      Quat.fromRotationZ 0 ∧
     (CameraPose.mk (Transform.fromTranslation ⟨0, 0, 0⟩)
        (Transform.fromTranslation ⟨0, 0, 1000⟩)).position.scale = Vec3.one) ∧
    ((move_camera 2 (CameraPose.mk (Transform.fromTranslation ⟨0, 0, 0⟩)
        (Transform.fromTranslation ⟨0, 0, 1000⟩))).position.rotation =
      Quat.fromRotationZ (0 + 0.5 * 2) ∧
     (move_camera 2 (CameraPose.mk (Transform.fromTranslation ⟨0, 0, 0⟩)
        (Transform.fromTranslation ⟨0, 0, 1000⟩))).position.translation =
      (CameraPose.mk (Transform.fromTranslation ⟨0, 0, 0⟩)
        (Transform.fromTranslation ⟨0, 0, 1000⟩)).position.translation.add
        ⟨CAMERA_SPEED * 2 * Real.cos (0 + 0.5 * 2),
         CAMERA_SPEED * 2 * Real.sin (0 + 0.5 * 2), 0⟩ ∧
     (move_camera 2 (CameraPose.mk (Transform.fromTranslation ⟨0, 0, 0⟩)
        (Transform.fromTranslation ⟨0, 0, 1000⟩))).position.scale = Vec3.one ∧
     (move_camera 2 (CameraPose.mk (Transform.fromTranslation ⟨0, 0, 0⟩)
        (Transform.fromTranslation ⟨0, 0, 1000⟩))).transform.translation =
      (move_camera 2 (CameraPose.mk (Transform.fromTranslation ⟨0, 0, 0⟩)
        (Transform.fromTranslation ⟨0, 0, 1000⟩))).position.translation ∧
     (move_camera 2 (CameraPose.mk (Transform.fromTranslation ⟨0, 0, 0⟩)
        (Transform.fromTranslation ⟨0, 0, 1000⟩))).transform.rotation =
      (CameraPose.mk (Transform.fromTranslation ⟨0, 0, 0⟩)
        (Transform.fromTranslation ⟨0, 0, 1000⟩)).transform.rotation.mul
        (Quat.fromRotationZ (2 / 2)) ∧
     (move_camera 2 (CameraPose.mk (Transform.fromTranslation ⟨0, 0, 0⟩)
        (Transform.fromTranslation ⟨0, 0, 1000⟩))).transform.scale =
      (CameraPose.mk (Transform.fromTranslation ⟨0, 0, 0⟩)
        (Transform.fromTranslation ⟨0, 0, 1000⟩)).transform.scale) :=
  ⟨⟨Quat.fromRotationZ_zero.symm, rfl⟩,
    move_camera_integrates_pose 2 0
      (CameraPose.mk (Transform.fromTranslation ⟨0, 0, 0⟩)
        (Transform.fromTranslation ⟨0, 0, 1000⟩))
      Quat.fromRotationZ_zero.symm rfl⟩

end AwGeez
